import Mathlib

/-!
Verification of the variance-of-density-field slice of GalaxyTools
(src/GalaxyTools/cosmo.py): the window-function kernels wf and dwf, the
radius binning, and the variance routine, together with the power-spectrum
fallback logic (read_powerspectrum / calc_Plin).

Floating-point arrays are embedded as lists of real numbers; numpy/scipy
numerical primitives (np.trapz, scipy cumtrapz, np.logspace) are embedded
as the exact real-arithmetic recurrences they implement.  A print followed
by exit() in the source is embedded as an error value of an Except result,
since the function then never returns a value to its caller.
-/

open Real

/-- Power-spectrum table: the two-column record array with fields k and P
produced by read_powerspectrum (cosmo.py lines 71-80). -/
structure PSTable where
  k : List ℝ
  P : List ℝ

/-- The slice param.mf of the configuration object consumed by wf and dwf:
the window name and the smooth-k shape parameter beta. -/
structure MfParam where
  window : String
  beta : ℝ

/-- The slice param.code of the configuration object consumed by variance:
Nrbin, rmin, rmax (cosmo.py lines 164-166). -/
structure CodeParam where
  Nrbin : ℕ
  rmin : ℝ
  rmax : ℝ

/-- The configuration record passed to wf, dwf and variance. -/
structure Param where
  mf : MfParam
  code : CodeParam

/-- Failure modes of the cosmo.py routines.  configurationError and ioError
are reported by the source with a print followed by exit(), after which the
function yields nothing to its caller; typeError is the Python TypeError
raised by np.ones(y) in the sharpk branch of wf, where y is used as an
array shape and the float arguments wf receives are not valid shapes.
All are embedded as Except error results. -/
inductive CosmoError where
  | configurationError
  | ioError
  | typeError
  deriving DecidableEq

/-- np.trapz(y, x): trapezoidal rule over the sample points x with values y,
sum of (x1 - x0) * (y0 + y1) / 2 over consecutive pairs. -/
noncomputable def trapz : List ℝ → List ℝ → ℝ
  | y0 :: y1 :: ys, x0 :: x1 :: xs =>
      (x1 - x0) * (y0 + y1) / 2 + trapz (y1 :: ys) (x1 :: xs)
  | _, _ => 0

/-- Running part of cumtrapz: xp, yp are the previous sample, acc the sum of
the trapezoids so far; emits the cumulative sums for the remaining samples. -/
noncomputable def cumtrapzGo (xp yp acc : ℝ) : List ℝ → List ℝ → List ℝ
  | y :: ys, x :: xs =>
      (acc + (x - xp) * (yp + y) / 2) ::
        cumtrapzGo x y (acc + (x - xp) * (yp + y) / 2) ys xs
  | _, _ => []

/-- scipy.integrate.cumtrapz(y, x, initial=init): the init value is inserted
at the front of the result, and the following entries are the running
trapezoid sums (scipy does not add init to them). -/
noncomputable def cumtrapz (y x : List ℝ) (init : ℝ) : List ℝ :=
  match y, x with
  | y0 :: ys, x0 :: xs => init :: cumtrapzGo x0 y0 0 ys xs
  | _, _ => []

/-- np.logspace(a, b, n, base=np.e): n points exp(a + (b - a) * i / (n - 1))
for i = 0 .. n-1. -/
noncomputable def logspace (a b : ℝ) (n : ℕ) : List ℝ :=
  (List.range n).map fun i : ℕ => Real.exp (a + (b - a) * (i : ℝ) / ((n : ℝ) - 1))

/-- TopHat branch of wf (cosmo.py lines 102-104):
w = 3 (sin y - y cos y) / y^3, then w set to 0 where y > 100. -/
noncomputable def wf_tophat (y : ℝ) : ℝ :=
  if y > 100 then 0 else 3 * (Real.sin y - y * Real.cos y) / y ^ 3

/-- Gaussian branch of wf (cosmo.py lines 108-109): w = exp(-y^2/2). -/
noncomputable def wf_gaussian (y : ℝ) : ℝ :=
  Real.exp (-y ^ 2 / 2)

/-- SmoothK branch of wf (cosmo.py lines 110-112): w = 1/(1 + y^beta),
with real exponentiation y ** beta. -/
noncomputable def wf_smoothk (beta y : ℝ) : ℝ :=
  1 / (1 + y ^ beta)

/-- TopHat branch of dwf (cosmo.py lines 125-127):
dw = 3 ((y^2 - 3) sin y + 3 y cos y) / y^3, set to 0 where y > 100. -/
noncomputable def dwf_tophat (y : ℝ) : ℝ :=
  if y > 100 then 0 else 3 * ((y ^ 2 - 3) * Real.sin y + 3 * y * Real.cos y) / y ^ 3

/-- Gaussian branch of dwf (cosmo.py lines 133-134): dw = -y^2 exp(-y^2/2). -/
noncomputable def dwf_gaussian (y : ℝ) : ℝ :=
  -y ^ 2 * Real.exp (-y ^ 2 / 2)

/-- SmoothK branch of dwf (cosmo.py lines 135-137):
dw = -beta y^beta / (1 + y^beta)^2. -/
noncomputable def dwf_smoothk (beta y : ℝ) : ℝ :=
  -beta * y ^ beta / (1 + y ^ beta) ^ 2

/-- wf(y, param) (cosmo.py lines 97-116): dispatch on param.mf.window.  The
sharpk branch runs w = np.ones(y), which uses y as an array shape; the float
scalar or float-array arguments wf receives are not valid shapes, so the
call raises TypeError before the mask line and wf yields no value, embedded
as a type error result.  The undefined-window branch prints and exits,
embedded as a configuration error result. -/
noncomputable def wf (y : ℝ) (param : Param) : Except CosmoError ℝ :=
  if param.mf.window = "tophat" then Except.ok (wf_tophat y)
  else if param.mf.window = "sharpk" then Except.error CosmoError.typeError
  else if param.mf.window = "gaussian" then Except.ok (wf_gaussian y)
  else if param.mf.window = "smoothk" then Except.ok (wf_smoothk param.mf.beta y)
  else Except.error CosmoError.configurationError

/-- dwf(y, param) (cosmo.py lines 119-141): dispatch on param.mf.window; the
sharpk branch returns the scalar 0 (the delta-function part is handled by the
caller); the undefined-window branch prints and exits. -/
noncomputable def dwf (y : ℝ) (param : Param) : Except CosmoError ℝ :=
  if param.mf.window = "tophat" then Except.ok (dwf_tophat y)
  else if param.mf.window = "sharpk" then Except.ok 0
  else if param.mf.window = "gaussian" then Except.ok (dwf_gaussian y)
  else if param.mf.window = "smoothk" then Except.ok (dwf_smoothk param.mf.beta y)
  else Except.error CosmoError.configurationError

/-- Elementwise value of wf for use inside variance, where the direct branch
has already checked that the window string is tophat, gaussian or smoothk.
The sharpk branch (whose np.ones(y) call would raise TypeError) and the
final default are both unreachable from variance, which never calls wf for
sharpk or for an unrecognized window; they carry the same placeholder 0. -/
noncomputable def wfFun (param : Param) (y : ℝ) : ℝ :=
  if param.mf.window = "tophat" then wf_tophat y
  else if param.mf.window = "sharpk" then 0
  else if param.mf.window = "gaussian" then wf_gaussian y
  else if param.mf.window = "smoothk" then wf_smoothk param.mf.beta y
  else 0

/-- Elementwise value of dwf for use inside variance, same proviso as wfFun. -/
noncomputable def dwfFun (param : Param) (y : ℝ) : ℝ :=
  if param.mf.window = "tophat" then dwf_tophat y
  else if param.mf.window = "sharpk" then 0
  else if param.mf.window = "gaussian" then dwf_gaussian y
  else if param.mf.window = "smoothk" then dwf_smoothk param.mf.beta y
  else 0

/-- The radius binning of variance (cosmo.py line 167):
rbin = np.logspace(np.log(rmin), np.log(rmax), Nrbin, base=np.e). -/
noncomputable def rbinOf (param : Param) : List ℝ :=
  logspace (Real.log param.code.rmin) (Real.log param.code.rmax) param.code.Nrbin

/-- Integrand of the variance integral (cosmo.py line 175):
itd_var = PS.k^2 * PS.P * wf(PS.k * r)^2, elementwise over the table. -/
noncomputable def itdVar (param : Param) (PS : PSTable) (r : ℝ) : List ℝ :=
  List.zipWith (fun k p => k ^ 2 * p * wfFun param (k * r) ^ 2) PS.k PS.P

/-- Integrand of the derivative integral (cosmo.py line 178):
itd_dvar = PS.k^2 * PS.P * wf(PS.k * r) * dwf(PS.k * r), elementwise. -/
noncomputable def itdDvar (param : Param) (PS : PSTable) (r : ℝ) : List ℝ :=
  List.zipWith (fun k p => k ^ 2 * p * wfFun param (k * r) * dwfFun param (k * r)) PS.k PS.P

/-- The var list built by the direct-integration loop (cosmo.py lines 171-176):
var[i] = trapz(itd_var, PS.k) / (2 pi^2) at r = rbin[i]. -/
noncomputable def varDirect (param : Param) (PS : PSTable) : List ℝ :=
  (rbinOf param).map fun r => trapz (itdVar param PS r) PS.k / (2 * Real.pi ^ 2)

/-- The dlnvardlnr list built by the direct-integration loop (cosmo.py
lines 177-179): dlnvardlnr[i] = 2 trapz(itd_dvar, PS.k) / (2 pi^2 var[i]),
where var[i] is the entry just computed for the same radius. -/
noncomputable def dlnDirect (param : Param) (PS : PSTable) : List ℝ :=
  (rbinOf param).map fun r =>
    2 * trapz (itdDvar param PS r) PS.k /
      (2 * Real.pi ^ 2 * (trapz (itdVar param PS r) PS.k / (2 * Real.pi ^ 2)))

/-- The sharp-k wavenumber grid (cosmo.py lines 185-186):
kbin = 1/rbin reversed to ascending order. -/
noncomputable def kbinOf (param : Param) : List ℝ :=
  ((rbinOf param).map fun r => 1 / r).reverse

/-- The sharp-k var array (cosmo.py lines 187-188):
var = cumtrapz(kbin^2 * splev(kbin, tck), kbin, initial=1e-5) / (2 pi^2),
then reversed back to ascending-radius order.  The scipy spline
splev(., splrep(PS.k, PS.P)) is the supplied function spline. -/
noncomputable def varSharpk (param : Param) (spline : ℝ → ℝ) : List ℝ :=
  ((cumtrapz ((kbinOf param).map fun k => k ^ 2 * spline k) (kbinOf param) 1e-5).map
      fun v => v / (2 * Real.pi ^ 2)).reverse

/-- The sharp-k dlnvardlnr array (cosmo.py line 190):
dlnvardlnr = -1/(2 pi^2 var) * splev(1/rbin, tck) / rbin^3, elementwise. -/
noncomputable def dlnSharpk (param : Param) (spline : ℝ → ℝ) : List ℝ :=
  List.zipWith (fun r v => -1 / (2 * Real.pi ^ 2 * v) * spline (1 / r) / r ^ 3)
    (rbinOf param) (varSharpk param spline)

/-- variance(param) (cosmo.py lines 144-202).  The power spectrum PS models
the table obtained in lines 152-161 (preloaded param.cosmo.plin or
read_powerspectrum); spline models the scipy spline splev(., splrep(PS.k,
PS.P)) of line 184; writeOk records whether np.savetxt of line 197 succeeds:
on IOError the source prints and exits (lines 198-200), so the caller
receives an error instead of the computed triple. -/
noncomputable def variance (param : Param) (PS : PSTable) (spline : ℝ → ℝ)
    (writeOk : Bool) : Except CosmoError (List ℝ × List ℝ × List ℝ) :=
  if param.mf.window = "tophat" ∨ param.mf.window = "gaussian" ∨ param.mf.window = "smoothk" then
    if writeOk then Except.ok (rbinOf param, varDirect param PS, dlnDirect param PS)
    else Except.error CosmoError.ioError
  else if param.mf.window = "sharpk" then
    if writeOk then Except.ok (rbinOf param, varSharpk param spline, dlnSharpk param spline)
    else Except.error CosmoError.ioError
  else Except.error CosmoError.configurationError

/-- Claim C5, counterexample: windowValue at y = 0 is not 1 for two of the
four kinds.  For TopHat the wf formula at y = 0 is
3 * (sin 0 - 0 * cos 0) / 0 ^ 3, an indeterminate 0/0 (NaN in the numpy
evaluation, 0 under the total real division used here).  For SharpK the
branch runs np.ones(y) with y as an array shape, which raises TypeError on
the float arguments wf receives, so no value is produced at all. -/
theorem wf_at_zero_counterexample :
    wf 0 ⟨⟨"tophat", 1⟩, ⟨2, 1, 2⟩⟩ ≠ Except.ok 1 ∧
    wf 0 ⟨⟨"sharpk", 1⟩, ⟨2, 1, 2⟩⟩ ≠ Except.ok 1 := by
  constructor
  · have h : wf 0 ⟨⟨"tophat", 1⟩, ⟨2, 1, 2⟩⟩ = Except.ok (wf_tophat 0) := by
      rw [wf]
      norm_num
    have h0 : wf_tophat 0 = 0 := by
      rw [wf_tophat, if_neg (by norm_num)]
      norm_num
    rw [h, h0]
    intro hc
    exact one_ne_zero (Except.ok.injEq _ _ ▸ hc).symm
  · have h : wf 0 ⟨⟨"sharpk", 1⟩, ⟨2, 1, 2⟩⟩ = Except.error CosmoError.typeError := by
      simp [wf]
    rw [h]
    intro hc
    exact Except.noConfusion hc

/-- Claim C5, amended: windowValue at y = 0 equals 1 only for the Gaussian
and SmoothK (with beta > 0) windows.  For TopHat the formula is the
indeterminate 0/0 at y = 0 rather than 1, and for SharpK the np.ones(y)
call raises TypeError (y is used as an array shape), so the branch returns
no value at all. -/
theorem wf_at_zero_amended (β : ℝ) (hβ : 0 < β) (code : CodeParam) :
    wf 0 ⟨⟨"gaussian", β⟩, code⟩ = Except.ok 1 ∧
    wf 0 ⟨⟨"smoothk", β⟩, code⟩ = Except.ok 1 ∧
    wf 0 ⟨⟨"sharpk", β⟩, code⟩ = Except.error CosmoError.typeError := by
  refine ⟨?_, ?_, ?_⟩
  · simp [wf, wf_gaussian]
  · simp [wf, wf_smoothk, Real.zero_rpow hβ.ne']
  · simp [wf]

/-- Witness for the amended claim C5 at beta = 1. -/
theorem wf_at_zero_amended_witness :
    wf 0 ⟨⟨"gaussian", 1⟩, ⟨2, 1, 2⟩⟩ = Except.ok 1 ∧
    wf 0 ⟨⟨"smoothk", 1⟩, ⟨2, 1, 2⟩⟩ = Except.ok 1 ∧
    wf 0 ⟨⟨"sharpk", 1⟩, ⟨2, 1, 2⟩⟩ = Except.error CosmoError.typeError :=
  wf_at_zero_amended 1 (by norm_num) ⟨2, 1, 2⟩

/-- Claim C6, counterexample: the TopHat window value is not monotonically
non-increasing on y ≥ 0: at y1 = 2 pi it is negative while at y2 = 5 pi / 2
it is positive, so it increases between these two points. -/
theorem tophat_monotonicity_counterexample :
    0 ≤ 2 * π ∧ 2 * π ≤ 5 * π / 2 ∧ wf_tophat (2 * π) < wf_tophat (5 * π / 2) := by
  have hpi := Real.pi_pos
  have hpi2 : π < 3.15 := Real.pi_lt_d2
  refine ⟨by positivity, by linarith, ?_⟩
  have h1 : wf_tophat (2 * π) < 0 := by
    rw [wf_tophat, if_neg (by push_neg; linarith)]
    apply div_neg_of_neg_of_pos
    · rw [Real.sin_two_pi, Real.cos_two_pi]
      nlinarith
    · positivity
  have h2 : 0 < wf_tophat (5 * π / 2) := by
    have e : (5 * π / 2 : ℝ) = π / 2 + 2 * π := by ring
    rw [e, wf_tophat, if_neg (by push_neg; linarith), Real.sin_add_two_pi,
      Real.cos_add_two_pi, Real.sin_pi_div_two, Real.cos_pi_div_two]
    rw [mul_zero, sub_zero]
    positivity
  linarith

/-- Claim C6, amended: the Gaussian window value is monotonically
non-increasing on y ≥ 0 (the TopHat one is not, see the counterexample). -/
theorem gaussian_window_nonincreasing (y1 y2 : ℝ) (h0 : 0 ≤ y1) (h12 : y1 ≤ y2) :
    wf_gaussian y2 ≤ wf_gaussian y1 := by
  rw [wf_gaussian, wf_gaussian]
  apply Real.exp_le_exp.mpr
  nlinarith

/-- Witness for the amended claim C6 at y1 = 0, y2 = 1. -/
theorem gaussian_window_nonincreasing_witness : wf_gaussian 1 ≤ wf_gaussian 0 :=
  gaussian_window_nonincreasing 0 1 (by norm_num) (by norm_num)

/-- Claim C7: for a window string that is none of tophat, sharpk, gaussian,
smoothk, each of wf, dwf and variance ends in the undefined-window branch
(print plus exit in the source), so the caller observes the configuration
error and no default value is returned. -/
theorem undefined_window_raises_configuration_error (param : Param) (PS : PSTable)
    (spline : ℝ → ℝ) (writeOk : Bool) (y : ℝ)
    (h1 : param.mf.window ≠ "tophat") (h2 : param.mf.window ≠ "sharpk")
    (h3 : param.mf.window ≠ "gaussian") (h4 : param.mf.window ≠ "smoothk") :
    wf y param = Except.error CosmoError.configurationError ∧
    dwf y param = Except.error CosmoError.configurationError ∧
    variance param PS spline writeOk = Except.error CosmoError.configurationError := by
  refine ⟨?_, ?_, ?_⟩
  · rw [wf, if_neg h1, if_neg h2, if_neg h3, if_neg h4]
  · rw [dwf, if_neg h1, if_neg h2, if_neg h3, if_neg h4]
  · rw [variance, if_neg (by push_neg; exact ⟨h1, h3, h4⟩), if_neg h2]

/-- Witness for claim C7 at the window string "boxcar". -/
theorem undefined_window_raises_configuration_error_witness :
    wf 0 ⟨⟨"boxcar", 1⟩, ⟨2, 1, 2⟩⟩ = Except.error CosmoError.configurationError ∧
    dwf 0 ⟨⟨"boxcar", 1⟩, ⟨2, 1, 2⟩⟩ = Except.error CosmoError.configurationError ∧
    variance ⟨⟨"boxcar", 1⟩, ⟨2, 1, 2⟩⟩ ⟨[], []⟩ (fun x => x) true =
      Except.error CosmoError.configurationError :=
  undefined_window_raises_configuration_error _ _ _ _ 0
    (by decide) (by decide) (by decide) (by decide)

/-- The logspace grid has exactly n entries. -/
theorem logspace_length (a b : ℝ) (n : ℕ) : (logspace a b n).length = n := by
  rw [logspace, List.length_map, List.length_range]

/-- Entry i of the logspace grid. -/
theorem logspace_getD (a b : ℝ) (n i : ℕ) (hi : i < n) (d : ℝ) :
    (logspace a b n).getD i d = Real.exp (a + (b - a) * i / ((n : ℝ) - 1)) := by
  rw [logspace,
    List.getD_eq_getElem _ _ (by rw [List.length_map, List.length_range]; exact hi),
    List.getElem_map]
  congr 2
  rw [List.getElem_range]

/-- The first logspace entry is exp a. -/
theorem logspace_first (a b : ℝ) (n : ℕ) (hn : 0 < n) :
    (logspace a b n).getD 0 0 = Real.exp a := by
  rw [logspace_getD a b n 0 hn]
  norm_num

/-- The last logspace entry is exp b. -/
theorem logspace_last (a b : ℝ) (n : ℕ) (hn : 2 ≤ n) :
    (logspace a b n).getD (n - 1) 0 = Real.exp b := by
  have hne : ((n : ℝ) - 1) ≠ 0 := by
    have h2 : (2 : ℝ) ≤ (n : ℝ) := by exact_mod_cast hn
    linarith
  rw [logspace_getD a b n (n - 1) (by omega), Nat.cast_sub (by omega : 1 ≤ n), Nat.cast_one,
    mul_div_assoc, div_self hne, mul_one]
  congr 1
  ring

/-- The logspace grid is strictly increasing when a < b and n ≥ 2. -/
theorem logspace_pairwise (a b : ℝ) (n : ℕ) (hn : 2 ≤ n) (hab : a < b) :
    (logspace a b n).Pairwise (· < ·) := by
  have hpos : (0 : ℝ) < (n : ℝ) - 1 := by
    have h2 : (2 : ℝ) ≤ (n : ℝ) := by exact_mod_cast hn
    linarith
  have hba : (0 : ℝ) < b - a := by linarith
  rw [logspace, List.pairwise_map]
  refine (List.pairwise_lt_range n).imp fun {i j} hij => ?_
  apply Real.exp_lt_exp.mpr
  apply add_lt_add_left
  rw [div_eq_mul_inv, div_eq_mul_inv]
  have hij' : (i : ℝ) < (j : ℝ) := by exact_mod_cast hij
  exact mul_lt_mul_of_pos_right (by nlinarith) (inv_pos.mpr hpos)

/-- The ratio of consecutive logspace entries is the constant exp of the step. -/
theorem logspace_ratio (a b : ℝ) (n : ℕ) (hn : 2 ≤ n) (i : ℕ) (hi : i + 1 < n) :
    (logspace a b n).getD (i + 1) 0 / (logspace a b n).getD i 0 =
      Real.exp ((b - a) / ((n : ℝ) - 1)) := by
  have hne : ((n : ℝ) - 1) ≠ 0 := by
    have h2 : (2 : ℝ) ≤ (n : ℝ) := by exact_mod_cast hn
    linarith
  rw [logspace_getD a b n (i + 1) hi, logspace_getD a b n i (by omega), ← Real.exp_sub]
  congr 1
  push_cast
  field_simp
  ring

/-- Claim C4: for count ≥ 2 and rmax > rmin > 0 the radius grid has exactly
count entries, starts at rmin, ends at rmax (exactly, in real arithmetic),
is strictly increasing, and has the constant consecutive ratio
exp((log rmax - log rmin)/(count - 1)), i.e. log-uniform spacing. -/
theorem radius_binning_properties (param : Param)
    (hN : 2 ≤ param.code.Nrbin) (h0 : 0 < param.code.rmin)
    (hlt : param.code.rmin < param.code.rmax) :
    (rbinOf param).length = param.code.Nrbin ∧
    (rbinOf param).getD 0 0 = param.code.rmin ∧
    (rbinOf param).getD (param.code.Nrbin - 1) 0 = param.code.rmax ∧
    (rbinOf param).Pairwise (· < ·) ∧
    ∀ i, i + 1 < param.code.Nrbin →
      (rbinOf param).getD (i + 1) 0 / (rbinOf param).getD i 0 =
        Real.exp ((Real.log param.code.rmax - Real.log param.code.rmin) /
          ((param.code.Nrbin : ℝ) - 1)) := by
  have h0' : 0 < param.code.rmax := lt_trans h0 hlt
  have hab : Real.log param.code.rmin < Real.log param.code.rmax := Real.log_lt_log h0 hlt
  refine ⟨?_, ?_, ?_, ?_, ?_⟩
  · rw [rbinOf, logspace_length]
  · rw [rbinOf, logspace_first _ _ _ (by omega), Real.exp_log h0]
  · rw [rbinOf, logspace_last _ _ _ hN, Real.exp_log h0']
  · rw [rbinOf]
    exact logspace_pairwise _ _ _ hN hab
  · intro i hi
    rw [rbinOf, logspace_ratio _ _ _ hN i hi]

/-- Witness for claim C4 with count = 2, rmin = 1, rmax = 2. -/
theorem radius_binning_properties_witness :
    (rbinOf ⟨⟨"tophat", 1⟩, ⟨2, 1, 2⟩⟩).length = 2 ∧
    (rbinOf ⟨⟨"tophat", 1⟩, ⟨2, 1, 2⟩⟩).getD 0 0 = 1 ∧
    (rbinOf ⟨⟨"tophat", 1⟩, ⟨2, 1, 2⟩⟩).getD (2 - 1) 0 = 2 ∧
    (rbinOf ⟨⟨"tophat", 1⟩, ⟨2, 1, 2⟩⟩).Pairwise (· < ·) ∧
    ∀ i, i + 1 < 2 →
      (rbinOf ⟨⟨"tophat", 1⟩, ⟨2, 1, 2⟩⟩).getD (i + 1) 0 /
          (rbinOf ⟨⟨"tophat", 1⟩, ⟨2, 1, 2⟩⟩).getD i 0 =
        Real.exp ((Real.log 2 - Real.log 1) / (((2 : ℕ) : ℝ) - 1)) :=
  radius_binning_properties ⟨⟨"tophat", 1⟩, ⟨2, 1, 2⟩⟩ (by norm_num) (by norm_num) (by norm_num)

/-- getD of a mapped list at an index below the length. -/
theorem getD_map_lt (f : ℝ → ℝ) (l : List ℝ) (i : ℕ) (hi : i < l.length) (d : ℝ) :
    (l.map f).getD i d = f (l.getD i d) := by
  rw [List.getD_eq_getElem _ _ (by rw [List.length_map]; exact hi),
    List.getD_eq_getElem _ _ hi, List.getElem_map]

/-- Claim C1: on the direct-integration path (tophat, gaussian or smoothk
window) the variance returned for bin i is the trapezoidal integral of
k^2 P wf(k r_i)^2 over the whole tabulated k grid divided by 2 pi^2, and the
returned log-derivative for bin i is 2 times the trapezoidal integral of
k^2 P wf(k r_i) dwf(k r_i) over the same grid, divided by 2 pi^2 times the
variance of bin i. -/
theorem variance_direct_matches_trapz_formula (param : Param) (PS : PSTable)
    (spline : ℝ → ℝ)
    (hw : param.mf.window = "tophat" ∨ param.mf.window = "gaussian" ∨
      param.mf.window = "smoothk")
    (i : ℕ) (hi : i < param.code.Nrbin) :
    ∃ rbin var dln, variance param PS spline true = Except.ok (rbin, var, dln) ∧
      var.getD i 0 =
        trapz (List.zipWith (fun k p => k ^ 2 * p * wfFun param (k * rbin.getD i 0) ^ 2)
          PS.k PS.P) PS.k / (2 * Real.pi ^ 2) ∧
      dln.getD i 0 =
        2 * trapz (List.zipWith
            (fun k p => k ^ 2 * p * wfFun param (k * rbin.getD i 0) *
              dwfFun param (k * rbin.getD i 0)) PS.k PS.P) PS.k /
          (2 * Real.pi ^ 2 * var.getD i 0) := by
  have hlen : i < (rbinOf param).length := by
    rw [rbinOf, logspace_length]
    exact hi
  refine ⟨rbinOf param, varDirect param PS, dlnDirect param PS, ?_, ?_, ?_⟩
  · rw [variance, if_pos hw, if_pos rfl]
  · rw [varDirect, getD_map_lt _ _ _ hlen, itdVar]
  · rw [dlnDirect, getD_map_lt _ _ _ hlen, varDirect, getD_map_lt _ _ _ hlen, itdVar, itdDvar]

/-- Witness for claim C1 with the gaussian window, two radius bins and an
empty power-spectrum table, at bin index 0. -/
theorem variance_direct_matches_trapz_formula_witness :
    ∃ rbin var dln,
      variance ⟨⟨"gaussian", 1⟩, ⟨2, 1, 2⟩⟩ ⟨[], []⟩ (fun x => x) true =
        Except.ok (rbin, var, dln) ∧
      var.getD 0 0 =
        trapz (List.zipWith
          (fun k p => k ^ 2 * p * wfFun ⟨⟨"gaussian", 1⟩, ⟨2, 1, 2⟩⟩ (k * rbin.getD 0 0) ^ 2)
          [] []) [] / (2 * Real.pi ^ 2) ∧
      dln.getD 0 0 =
        2 * trapz (List.zipWith
            (fun k p => k ^ 2 * p * wfFun ⟨⟨"gaussian", 1⟩, ⟨2, 1, 2⟩⟩ (k * rbin.getD 0 0) *
              dwfFun ⟨⟨"gaussian", 1⟩, ⟨2, 1, 2⟩⟩ (k * rbin.getD 0 0)) [] []) [] /
          (2 * Real.pi ^ 2 * var.getD 0 0) :=
  variance_direct_matches_trapz_formula ⟨⟨"gaussian", 1⟩, ⟨2, 1, 2⟩⟩ ⟨[], []⟩ (fun x => x)
    (Or.inr (Or.inl rfl)) 0 (by norm_num)

/-- Every element of a zipWith list comes from elements of the two inputs. -/
theorem of_mem_zipWith {α β γ : Type} {f : α → β → γ} {c : γ} :
    ∀ {l₁ : List α} {l₂ : List β}, c ∈ List.zipWith f l₁ l₂ →
      ∃ a ∈ l₁, ∃ b ∈ l₂, c = f a b := by
  intro l₁
  induction l₁ with
  | nil => intro l₂ h; simp at h
  | cons a l₁ ih =>
    intro l₂ h
    cases l₂ with
    | nil => simp at h
    | cons b l₂ =>
      rw [List.zipWith_cons_cons, List.mem_cons] at h
      rcases h with h | h
      · exact ⟨a, by simp, b, by simp, h⟩
      · rcases ih h with ⟨a', ha', b', hb', hc⟩
        exact ⟨a', List.mem_cons_of_mem _ ha', b', List.mem_cons_of_mem _ hb', hc⟩

/-- The trapezoidal rule of a pointwise non-negative sample list over an
ascending grid is non-negative. -/
theorem trapz_nonneg (y : List ℝ) : ∀ x : List ℝ, List.Chain' (· ≤ ·) x →
    (∀ a ∈ y, 0 ≤ a) → 0 ≤ trapz y x := by
  induction y with
  | nil =>
    intro x _ _
    simp [trapz]
  | cons y0 ys ih =>
    intro x hx hy
    rcases ys with _ | ⟨y1, ys⟩
    · simp [trapz]
    rcases x with _ | ⟨x0, x⟩
    · simp [trapz]
    rcases x with _ | ⟨x1, xs⟩
    · simp [trapz]
    rw [trapz]
    have h01 : x0 ≤ x1 := (List.chain'_cons.mp hx).1
    have hrest : List.Chain' (· ≤ ·) (x1 :: xs) := (List.chain'_cons.mp hx).2
    have hy0 : 0 ≤ y0 := hy y0 (by simp)
    have hy1 : 0 ≤ y1 := hy y1 (by simp)
    have hrec := ih (x1 :: xs) hrest fun a ha => hy a (List.mem_cons_of_mem _ ha)
    have hterm : 0 ≤ (x1 - x0) * (y0 + y1) / 2 := by
      apply div_nonneg _ (by norm_num)
      exact mul_nonneg (by linarith) (by linarith)
    linarith

/-- Claim C3: on the direct-integration path, if the tabulated k values are
strictly increasing and the tabulated P values are all non-negative, then
every entry of the returned variance array is non-negative. -/
theorem variance_direct_nonneg (param : Param) (PS : PSTable) (spline : ℝ → ℝ)
    (hw : param.mf.window = "tophat" ∨ param.mf.window = "gaussian" ∨
      param.mf.window = "smoothk")
    (hk : List.Chain' (· < ·) PS.k) (hP : ∀ p ∈ PS.P, 0 ≤ p) :
    ∃ rbin var dln, variance param PS spline true = Except.ok (rbin, var, dln) ∧
      ∀ v ∈ var, 0 ≤ v := by
  refine ⟨rbinOf param, varDirect param PS, dlnDirect param PS, ?_, ?_⟩
  · rw [variance, if_pos hw, if_pos rfl]
  · intro v hv
    rw [varDirect] at hv
    rcases List.mem_map.mp hv with ⟨r, _, hvr⟩
    rw [← hvr]
    apply div_nonneg _ (by positivity)
    apply trapz_nonneg _ _ (hk.imp fun _ _ h => le_of_lt h)
    intro a ha
    rw [itdVar] at ha
    rcases of_mem_zipWith ha with ⟨kk, _, p, hp, hc⟩
    rw [hc]
    have h1 : 0 ≤ kk ^ 2 := sq_nonneg kk
    have h2 : 0 ≤ p := hP p hp
    have h3 : 0 ≤ wfFun param (kk * r) ^ 2 := sq_nonneg _
    positivity

/-- Witness for claim C3 with the tophat window and the two-point table
k = [1, 2], P = [1, 1]. -/
theorem variance_direct_nonneg_witness :
    ∃ rbin var dln,
      variance ⟨⟨"tophat", 1⟩, ⟨2, 1, 2⟩⟩ ⟨[1, 2], [1, 1]⟩ (fun x => x) true =
        Except.ok (rbin, var, dln) ∧
      ∀ v ∈ var, 0 ≤ v :=
  variance_direct_nonneg ⟨⟨"tophat", 1⟩, ⟨2, 1, 2⟩⟩ ⟨[1, 2], [1, 1]⟩ (fun x => x)
    (Or.inl rfl)
    (by simp [List.chain'_cons])
    (by intro p hp; rcases List.mem_pair.mp hp with h | h <;> rw [h] <;> norm_num)

/-- getD of a zipWith list at an index below both lengths. -/
theorem getD_zipWith_lt (f : ℝ → ℝ → ℝ) (l₁ l₂ : List ℝ) (i : ℕ)
    (h₁ : i < l₁.length) (h₂ : i < l₂.length) (d : ℝ) :
    (List.zipWith f l₁ l₂).getD i d = f (l₁.getD i d) (l₂.getD i d) := by
  rw [List.getD_eq_getElem _ _ (by rw [List.length_zipWith]; omega),
    List.getD_eq_getElem _ _ h₁, List.getD_eq_getElem _ _ h₂, List.getElem_zipWith]

/-- Length of the running cumtrapz output. -/
theorem cumtrapzGo_length : ∀ (ys xs : List ℝ) (xp yp acc : ℝ),
    (cumtrapzGo xp yp acc ys xs).length = min ys.length xs.length := by
  intro ys
  induction ys with
  | nil =>
    intro xs xp yp acc
    simp [cumtrapzGo]
  | cons y ys ih =>
    intro xs xp yp acc
    cases xs with
    | nil => simp [cumtrapzGo]
    | cons x xs =>
      rw [cumtrapzGo]
      simp [ih]
      omega

/-- cumtrapz over a grid and a sample list mapped from it has the grid's
length, provided the grid is non-empty. -/
theorem cumtrapz_length_eq (g : ℝ → ℝ) (x : List ℝ) (init : ℝ) (hx : x ≠ []) :
    (cumtrapz (x.map g) x init).length = x.length := by
  cases x with
  | nil => exact absurd rfl hx
  | cons x0 xs =>
    rw [List.map_cons]
    simp [cumtrapz, cumtrapzGo_length]

/-- The sharp-k wavenumber grid has Nrbin entries. -/
theorem kbinOf_length (param : Param) : (kbinOf param).length = param.code.Nrbin := by
  rw [kbinOf, List.length_reverse, List.length_map, rbinOf, logspace_length]

/-- The sharp-k variance array has Nrbin entries. -/
theorem varSharpk_length (param : Param) (spline : ℝ → ℝ) (hN : 0 < param.code.Nrbin) :
    (varSharpk param spline).length = param.code.Nrbin := by
  have hkne : kbinOf param ≠ [] := by
    apply List.length_pos.mp
    rw [kbinOf_length]
    exact hN
  rw [varSharpk, List.length_reverse, List.length_map, cumtrapz_length_eq _ _ _ hkne,
    kbinOf_length]

/-- Claim C2: on the sharp-k path the returned variance array equals the
cumulative trapezoidal integral of k^2 spline(k) over the grid k = 1/r
reversed to ascending order, with the value 1e-5 inserted in front, divided
by 2 pi^2 and reversed back; and the returned log-derivative at bin i is
-1/(2 pi^2 variance[i]) spline(1/r_i) / r_i^3. -/
theorem variance_sharpk_matches_cumtrapz_formula (param : Param) (PS : PSTable)
    (spline : ℝ → ℝ) (hw : param.mf.window = "sharpk")
    (hN : 2 ≤ param.code.Nrbin) (i : ℕ) (hi : i < param.code.Nrbin) :
    ∃ rbin var dln, variance param PS spline true = Except.ok (rbin, var, dln) ∧
      var = ((cumtrapz (((rbin.map fun r => 1 / r).reverse).map fun k => k ^ 2 * spline k)
          ((rbin.map fun r => 1 / r).reverse) 1e-5).map
            fun v => v / (2 * Real.pi ^ 2)).reverse ∧
      dln.getD i 0 = -1 / (2 * Real.pi ^ 2 * var.getD i 0) * spline (1 / rbin.getD i 0) /
        rbin.getD i 0 ^ 3 := by
  have hno : ¬(param.mf.window = "tophat" ∨ param.mf.window = "gaussian" ∨
      param.mf.window = "smoothk") := by
    rw [hw]
    decide
  have hrlen : i < (rbinOf param).length := by
    rw [rbinOf, logspace_length]
    exact hi
  have hvlen : i < (varSharpk param spline).length := by
    rw [varSharpk_length param spline (by omega)]
    exact hi
  refine ⟨rbinOf param, varSharpk param spline, dlnSharpk param spline, ?_, ?_, ?_⟩
  · rw [variance, if_neg hno, if_pos hw, if_pos rfl]
  · rw [varSharpk, kbinOf]
  · rw [dlnSharpk, getD_zipWith_lt _ _ _ _ hrlen hvlen]

/-- Witness for claim C2 with two radius bins, an empty table and the
identity spline, at bin index 0. -/
theorem variance_sharpk_matches_cumtrapz_formula_witness :
    ∃ rbin var dln,
      variance ⟨⟨"sharpk", 1⟩, ⟨2, 1, 2⟩⟩ ⟨[], []⟩ (fun x => x) true =
        Except.ok (rbin, var, dln) ∧
      var = ((cumtrapz (((rbin.map fun r => 1 / r).reverse).map fun k => k ^ 2 * (fun x : ℝ => x) k)
          ((rbin.map fun r => 1 / r).reverse) 1e-5).map
            fun v => v / (2 * Real.pi ^ 2)).reverse ∧
      dln.getD 0 0 = -1 / (2 * Real.pi ^ 2 * var.getD 0 0) *
          (fun x : ℝ => x) (1 / rbin.getD 0 0) / rbin.getD 0 0 ^ 3 :=
  variance_sharpk_matches_cumtrapz_formula ⟨⟨"sharpk", 1⟩, ⟨2, 1, 2⟩⟩ ⟨[], []⟩ (fun x => x)
    rfl (by norm_num) 0 (by norm_num)

/-- getD of a reversed list at the last position is the head entry. -/
theorem reverse_getD_last (l : List ℝ) (d : ℝ) (h : l ≠ []) :
    l.reverse.getD (l.length - 1) d = l.getD 0 d := by
  have hl : 0 < l.length := List.length_pos.mpr h
  rw [List.getD_eq_getElem _ _ (by rw [List.length_reverse]; omega),
    List.getD_eq_getElem _ _ hl, List.getElem_reverse]
  congr 1
  omega

/-- Claim C10: in the sharp-k path the variance at the largest radius bin is
exactly 1e-5 / (2 pi^2), for every power spectrum and spline: the prepended
init value 1e-5 of the cumulative integral is the whole entry at the
smallest wavenumber 1/rmax, and reversing puts it at the last radius. -/
theorem variance_sharpk_last_bin_initial (param : Param) (PS : PSTable)
    (spline : ℝ → ℝ) (hw : param.mf.window = "sharpk")
    (hN : 2 ≤ param.code.Nrbin) (h0 : 0 < param.code.rmin)
    (hlt : param.code.rmin < param.code.rmax) :
    ∃ rbin var dln, variance param PS spline true = Except.ok (rbin, var, dln) ∧
      var.getD (param.code.Nrbin - 1) 0 = 1e-5 / (2 * Real.pi ^ 2) := by
  have hno : ¬(param.mf.window = "tophat" ∨ param.mf.window = "gaussian" ∨
      param.mf.window = "smoothk") := by
    rw [hw]
    decide
  have hkne : kbinOf param ≠ [] := by
    apply List.length_pos.mp
    rw [kbinOf_length]
    omega
  refine ⟨rbinOf param, varSharpk param spline, dlnSharpk param spline, ?_, ?_⟩
  · rw [variance, if_neg hno, if_pos hw, if_pos rfl]
  · obtain ⟨k0, ks, hcons⟩ := List.exists_cons_of_ne_nil hkne
    rw [varSharpk]
    set L := cumtrapz ((kbinOf param).map fun k => k ^ 2 * spline k) (kbinOf param) 1e-5
      with hL
    have hLlen : L.length = param.code.Nrbin := by
      rw [hL, cumtrapz_length_eq _ _ _ hkne, kbinOf_length]
    have hL0 : L.getD 0 0 = 1e-5 := by
      rw [hL, hcons, List.map_cons]
      simp [cumtrapz]
    have hMne : (L.map fun v => v / (2 * Real.pi ^ 2)) ≠ [] := by
      intro hnil
      have hlen0 := congrArg List.length hnil
      rw [List.length_map, hLlen] at hlen0
      simp at hlen0
      omega
    have hrev := reverse_getD_last (L.map fun v => v / (2 * Real.pi ^ 2)) 0 hMne
    rw [List.length_map, hLlen] at hrev
    rw [hrev, getD_map_lt _ _ _ (by rw [hLlen]; omega), hL0]

/-- Witness for claim C10 with two radius bins from 1 to 2 and an empty
power-spectrum table. -/
theorem variance_sharpk_last_bin_initial_witness :
    ∃ rbin var dln,
      variance ⟨⟨"sharpk", 1⟩, ⟨2, 1, 2⟩⟩ ⟨[], []⟩ (fun x => x) true =
        Except.ok (rbin, var, dln) ∧
      var.getD (2 - 1) 0 = 1e-5 / (2 * Real.pi ^ 2) :=
  variance_sharpk_last_bin_initial ⟨⟨"sharpk", 1⟩, ⟨2, 1, 2⟩⟩ ⟨[], []⟩ (fun x => x)
    rfl (by norm_num) (by norm_num) (by norm_num)

/-- Claim C8, counterexample: with the tophat window, a one-point table and a
failing write, variance yields the io error, not the computed (radius,
variance, log-derivative) triple: the source exits inside the except IOError
handler (cosmo.py lines 198-200) before reaching the return statement. -/
theorem variance_write_failure_counterexample :
    variance ⟨⟨"tophat", 1⟩, ⟨2, 1, 2⟩⟩ ⟨[1], [1]⟩ (fun x => x) false =
      Except.error CosmoError.ioError := by
  rw [variance, if_pos (Or.inl rfl), if_neg Bool.false_ne_true]

/-- Claim C8, amended: when np.savetxt raises IOError the source reports it
and exits, so for every recognized window the caller receives the io error
and the already-computed in-memory triple is discarded, not returned. -/
theorem variance_write_failure_aborts (param : Param) (PS : PSTable) (spline : ℝ → ℝ)
    (hw : param.mf.window = "tophat" ∨ param.mf.window = "sharpk" ∨
      param.mf.window = "gaussian" ∨ param.mf.window = "smoothk") :
    variance param PS spline false = Except.error CosmoError.ioError := by
  rcases hw with h | h | h | h
  · rw [variance, if_pos (Or.inl h), if_neg Bool.false_ne_true]
  · have hno : ¬(param.mf.window = "tophat" ∨ param.mf.window = "gaussian" ∨
        param.mf.window = "smoothk") := by
      rw [h]
      decide
    rw [variance, if_neg hno, if_pos h, if_neg Bool.false_ne_true]
  · rw [variance, if_pos (Or.inr (Or.inl h)), if_neg Bool.false_ne_true]
  · rw [variance, if_pos (Or.inr (Or.inr h)), if_neg Bool.false_ne_true]

/-- Witness for the amended claim C8 with the gaussian window. -/
theorem variance_write_failure_aborts_witness :
    variance ⟨⟨"gaussian", 1⟩, ⟨2, 1, 2⟩⟩ ⟨[], []⟩ (fun x => x) false =
      Except.error CosmoError.ioError :=
  variance_write_failure_aborts ⟨⟨"gaussian", 1⟩, ⟨2, 1, 2⟩⟩ ⟨[], []⟩ (fun x => x)
    (Or.inr (Or.inr (Or.inl rfl)))

/-- Modelled from the spec: the table produced by the external CAMB
Boltzmann-solver invocation run_camb (module run_BoltzmannSolver, outside
this slice), a power-spectrum table. -/
structure CambOutput where
  k : List ℝ
  P : List ℝ

/-- Modelled from the spec: the object produced by the external CLASS solver
invocation run_class, carrying the wavenumber array k and the linear power
array pk_lin. -/
structure ClassOutput where
  k : List ℝ
  pk_lin : List ℝ

/-- Python runtime failure of calc_Plin: the camb branch binds its solver
result to the local r and never assigns PS, so the final return PS raises
an unbound-local name error. -/
inductive PyError where
  | unboundLocal
  deriving DecidableEq

/-- Python str.lower() on the ASCII solver keys, as applied to
param.file.ps in calc_Plin: lowercases each character. -/
def pyLower (s : String) : String :=
  ⟨s.data.map Char.toLower⟩

/-- calc_Plin(param) (cosmo.py lines 82-92).  The camb branch stores the
solver output in r and never assigns PS, so the function ends with return PS
on an unassigned name; the class branch builds the table from the solver
output; any other key prints a message, sets PS to None and returns it. -/
def calc_Plin (ps : String) (run_camb_out : CambOutput) (run_class_out : ClassOutput) :
    Except PyError (Option PSTable) :=
  if pyLower ps = "camb" then
    Except.error PyError.unboundLocal
  else if pyLower ps = "class" then
    Except.ok (some { k := run_class_out.k, P := run_class_out.pk_lin })
  else
    Except.ok none

/-- read_powerspectrum(param) (cosmo.py lines 71-80): the np.genfromtxt
table when the file is readable, otherwise the bare except falls back to
calc_Plin, whose outcome (including a raised error) reaches the caller. -/
def read_powerspectrum (fileResult : Option PSTable) (ps : String)
    (run_camb_out : CambOutput) (run_class_out : ClassOutput) :
    Except PyError (Option PSTable) :=
  match fileResult with
  | some PS => Except.ok (some PS)
  | none => calc_Plin ps run_camb_out run_class_out

/-- Claim C9, evaluated at the failing inputs: when the power-spectrum file
cannot be read, the camb fallback crashes with an unbound-local error
instead of returning a table (its branch never assigns PS), the class
fallback does return the table built from the solver output, and an
unrecognized key returns None to the caller instead of raising an error. -/
theorem read_powerspectrum_fallback_behaviour :
    read_powerspectrum none "camb" ⟨[], []⟩ ⟨[], []⟩ = Except.error PyError.unboundLocal ∧
    read_powerspectrum none "class" ⟨[], []⟩ ⟨[], []⟩ = Except.ok (some ⟨[], []⟩) ∧
    read_powerspectrum none "wrong" ⟨[], []⟩ ⟨[], []⟩ = Except.ok none :=
  ⟨rfl, rfl, rfl⟩
